import Mathlib

/-!
Verification of the message-transport core in `network/stream.go` of the noise
repository.  The file embeds the wire framing (length-prefixed payloads built
with `encoding/binary.PutUvarint` / decoded with `binary.Uvarint`), the
envelope validation and signature verification performed by `receiveMessage`,
the stream teardown discipline of `sendMessage` / `receiveMessage`, and the
packet construction of `Write`.  External collaborators (smux session, proto
marshalling, crypto.Verify) are modelled as parameters, exactly as the spec
treats them: opaque capabilities.
-/

/-- Loop of Go `encoding/binary.PutUvarint` (`for x >= 0x80 { buf[i] = byte(x)|0x80;
x >>= 7; i++ }; buf[i] = byte(x)`), written with structural fuel so that it
computes by kernel reduction.  The fuel only drives termination; `fuel = n + 1`
is always enough because `n / 128 < n` for `n ≥ 128`. -/
def putUvarintLoop : Nat → Nat → List Nat
  | 0, n => [n]
  | fuel + 1, n => if n < 128 then [n] else (n % 128 + 128) :: putUvarintLoop fuel (n / 128)

/-- Go `encoding/binary.PutUvarint`: the little-endian base-128 varint of `n`,
low 7-bit group first, continuation bit `0x80` on every byte but the last. -/
def putUvarint (n : Nat) : List Nat := putUvarintLoop (n + 1) n

/-- Loop of Go `encoding/binary.Uvarint` over a byte buffer: `i` is the byte
index, `x` the accumulator, `s` the shift.  Mirrors the Go source: the
`i == MaxVarintLen64` guard, the `i == MaxVarintLen64-1 && b > 1` final-byte
overflow guard, and the `uint64` shift truncation (`% 2 ^ 64`). -/
def uvarintLoop : List Nat → Nat → Nat → Nat → Nat × Int
  | [], _, _, _ => (0, 0)
  | b :: rest, i, x, s =>
    if i = 10 then (0, -((i : Int) + 1))
    else if b % 256 < 128 then
      if i = 9 ∧ 1 < b % 256 then (0, -((i : Int) + 1))
      else (x ||| ((b % 256) <<< s) % 2 ^ 64, (i : Int) + 1)
    else uvarintLoop rest (i + 1) (x ||| ((b % 256 % 128) <<< s) % 2 ^ 64) (s + 7)

/-- Go `encoding/binary.Uvarint`: returns the decoded value and the number of
bytes read; the second component is `0` on truncation and negative on
overflow, exactly like the Go return convention. -/
def uvarint (buf : List Nat) : Nat × Int := uvarintLoop buf 0 0 0

/-- The 10-byte length buffer built by sendMessage:
`buffer := make([]byte, binary.MaxVarintLen64)` followed by
`binary.PutUvarint(buffer, uint64(len(bytes)))`.  The minimal varint sits at
the front and the remainder keeps its zero initialisation. -/
def sizeBuffer (n : Nat) : List Nat :=
  putUvarint n ++ List.replicate (10 - (putUvarint n).length) 0

/-- The framed wire bytes produced by sendMessage:
`bytes = append(buffer, bytes...)` — the full 10-byte length buffer followed by
the marshalled body. -/
def frameBytes (body : List Nat) : List Nat :=
  sizeBuffer body.length ++ body

deriving instance DecidableEq for Except

/-- Error labels for the exit paths of receiveMessage, one per `return nil, err`
site in the Go source. -/
inductive RecvError
  | acceptFailed
  | deadlineFailed
  | readEOF
  | sizeBroken
  | bodyEOF
  | bodyUnexpectedEOF
  | unmarshalFailed
  | invalidMessage
  | badSignature
deriving DecidableEq

/-- The length-prefix step of receiveMessage: a single `reader.Read(buffer)`
into a zero-initialised 10-byte probe (delivering `min 10 input.length` bytes
of the stream, the rest of the probe keeping its zeros, and erring only on an
empty stream), then `binary.Uvarint` and the
`read <= 0 || size > 4e+6` check.  Returns the declared size and the number of
stream bytes the probe consumed. -/
def decodeFrameLen (input : List Nat) : Except RecvError (Nat × Nat) :=
  if input.length = 0 then .error .readEOF
  else
    let probeLen := min 10 input.length
    let buffer := input.take probeLen ++ List.replicate (10 - probeLen) 0
    let p := uvarint buffer
    if p.2 ≤ 0 ∨ 4000000 < p.1 then .error .sizeBroken
    else .ok (p.1, probeLen)

/-- The framing portion of receiveMessage: length prefix per `decodeFrameLen`,
then `io.ReadFull(reader, make([]byte, size))`.  Per `io.ReadFull`, an empty
remainder yields `io.EOF` while a nonempty-but-short remainder yields
`io.ErrUnexpectedEOF`.  The second component counts consumed stream bytes. -/
def receiveFrameC (input : List Nat) : Except RecvError (List Nat) × Nat :=
  match decodeFrameLen input with
  | .error e => (.error e, min 10 input.length)
  | .ok (size, consumed) =>
    let rest := input.drop consumed
    if size ≤ rest.length then (.ok (rest.take size), consumed + size)
    else if rest.length = 0 then (.error .bodyEOF, consumed)
    else (.error .bodyUnexpectedEOF, consumed + rest.length)

/-- The frame a receive call extracts from the stream (first component of
`receiveFrameC`). -/
def receiveFrame (input : List Nat) : Except RecvError (List Nat) :=
  (receiveFrameC input).1

/-- The sender identity record (protobuf `ID`): `PublicKey []byte` (a nil
pointer modelled as `none`) and `Address string` (Go strings are byte strings,
so a byte list). -/
structure PeerID where
  publicKey : Option (List Nat)
  address : List Nat
deriving DecidableEq

/-- The protobuf `Message` as receiveMessage uses it: `Message` (the payload
wrapper whose `Value` holds the payload bytes), `Sender`, and `Signature`.
`some` models a non-nil pointer field. -/
structure Msg where
  message : Option (List Nat)
  sender : Option PeerID
  signature : Option (List Nat)
deriving DecidableEq

/-- The payload bytes `msg.Message.Value` (only meaningful when the field is
present). -/
def Msg.payloadBytes (m : Msg) : List Nat := m.message.getD []

/-- The sender key `msg.Sender.PublicKey` (only meaningful when present). -/
def Msg.senderKey (m : Msg) : List Nat :=
  ((m.sender.getD ⟨none, []⟩).publicKey).getD []

/-- The signature bytes `msg.Signature` (only meaningful when present). -/
def Msg.sigBytes (m : Msg) : List Nat := m.signature.getD []

/-- The header validity check of receiveMessage:
`msg.Message == nil || msg.Sender == nil || msg.Sender.PublicKey == nil ||
len(msg.Sender.Address) == 0 || msg.Signature == nil`.  Go short-circuits the
disjunction, so when the sender is nil the `getD` defaults are never relevant:
the `isNone` disjunct is already true. -/
def invalidHeaders (m : Msg) : Bool :=
  m.message.isNone || m.sender.isNone ||
    ((m.sender.getD ⟨none, []⟩).publicKey).isNone ||
    decide ((m.sender.getD ⟨none, []⟩).address.length = 0) ||
    m.signature.isNone

/-- Observable outcome of one receiveMessage call: the returned value, whether
a stream was accepted, whether the deferred `stream.Close()` ran, whether the
extra `stream.Close()` in the truncation branch ran, whether the deferred
`stream.SetDeadline(time.Time{})` ran, and whether `crypto.Verify` was
invoked. -/
structure RecvOutcome where
  result : Except RecvError Msg
  streamAccepted : Bool
  closed : Bool
  forcedClose : Bool
  deadlineReset : Bool
  verifyCalled : Bool
deriving DecidableEq

/-- Embedding of receiveMessage.  `acceptOk` models `session.AcceptStream`
succeeding and `dlOk` models `stream.SetDeadline(timeout)` succeeding;
`unmarshal` is the external `proto.Unmarshal` capability (`none` = error) and
`verify` the external `crypto.Verify` capability; `input` is the complete byte
content the peer delivers on the stream (end of stream afterwards).  The
`defer stream.Close()` is registered as soon as the stream is accepted, while
the deadline-reset defer is registered only after `SetDeadline` returns
without error; the forced close happens exactly when `io.ReadFull` reports
`io.ErrUnexpectedEOF`. -/
def receiveMessage (acceptOk dlOk : Bool)
    (unmarshal : List Nat → Option Msg)
    (verify : List Nat → List Nat → List Nat → Bool)
    (input : List Nat) : RecvOutcome :=
  if acceptOk = false then
    ⟨.error .acceptFailed, false, false, false, false, false⟩
  else if dlOk = false then
    ⟨.error .deadlineFailed, true, true, false, false, false⟩
  else
    match receiveFrame input with
    | .error e =>
        ⟨.error e, true, true, decide (e = .bodyUnexpectedEOF), true, false⟩
    | .ok body =>
        match unmarshal body with
        | none => ⟨.error .unmarshalFailed, true, true, false, true, false⟩
        | some msg =>
            if invalidHeaders msg then
              ⟨.error .invalidMessage, true, true, false, true, false⟩
            else if verify msg.senderKey msg.payloadBytes msg.sigBytes then
              ⟨.ok msg, true, true, false, true, true⟩
            else
              ⟨.error .badSignature, true, true, false, true, true⟩

/-- Error labels for the exit paths of sendMessage. -/
inductive SendError
  | openFailed
  | deadlineFailed
  | marshalFailed
  | writeFailed
  | flushFailed
  | shortWrite
deriving DecidableEq

/-- Observable outcome of one sendMessage call: the returned value (the exact
wire bytes on success), whether a stream was opened, whether the deferred
`stream.Close()` ran, and whether the deferred deadline reset ran. -/
structure SendOutcome where
  result : Except SendError (List Nat)
  streamOpened : Bool
  closed : Bool
  deadlineReset : Bool
deriving DecidableEq

/-- Embedding of sendMessage.  `openOk` models `session.OpenStream` succeeding,
`dlOk` models `stream.SetDeadline` succeeding, `marshal` the external
`proto.Marshal` result (`none` = error), `writeRes` the byte count reported by
`writer.Write` (`none` = write error) and `flushOk` whether `writer.Flush`
succeeds.  As in the Go source, the close defer is registered right after the
stream opens, the deadline-reset defer only after `SetDeadline` succeeds, and
the short-write check runs after the flush. -/
def sendMessage (openOk dlOk : Bool) (marshal : Option (List Nat))
    (writeRes : Option Nat) (flushOk : Bool) : SendOutcome :=
  if openOk = false then ⟨.error .openFailed, false, false, false⟩
  else if dlOk = false then ⟨.error .deadlineFailed, true, true, false⟩
  else
    match marshal with
    | none => ⟨.error .marshalFailed, true, true, true⟩
    | some body =>
      match writeRes with
      | none => ⟨.error .writeFailed, true, true, true⟩
      | some written =>
        if flushOk = false then ⟨.error .flushFailed, true, true, true⟩
        else if written ≠ (frameBytes body).length then
          ⟨.error .shortWrite, true, true, true⟩
        else ⟨.ok (frameBytes body), true, true, true⟩

/-- A value carried by a Packet's completion slot (`chan interface{}`): the
dispatcher writes either an error or a success marker, matching the type
switch in Write. -/
inductive Completion
  | ok
  | err (e : SendError)
deriving DecidableEq

/-- State of a Go buffered channel used as a completion slot: its capacity and
the values currently buffered. -/
structure CompletionChan where
  capacity : Nat
  buffer : List Completion
deriving DecidableEq

/-- A send on a buffered channel with no waiting receiver: it completes
immediately (returning the new channel state) iff the buffer has free
capacity, and would block (`none`) otherwise. -/
def CompletionChan.send (c : CompletionChan) (v : Completion) : Option CompletionChan :=
  if c.buffer.length < c.capacity then some ⟨c.capacity, c.buffer ++ [v]⟩ else none

/-- The internal dispatch unit of Write: `RemoteAddress`, `Payload`, `Result`. -/
structure Packet where
  remoteAddress : List Nat
  payload : Msg
  result : CompletionChan

/-- Packet construction in Write: `&Packet{RemoteAddress: address, Payload:
message, Result: make(chan interface{}, 1)}` — a fresh completion slot with
capacity one and an empty buffer. -/
def mkPacket (address : List Nat) (message : Msg) : Packet :=
  ⟨address, message, ⟨1, []⟩⟩

/-- The spec's description of the encoder ("prefixes bytes with its length
encoded as an unsigned variable-length integer, using the minimal encoding for
that integer").  Modelled from the spec's words, for comparison with the
`frameBytes` encoder embedded from the source. -/
def specMinimalFrame (b : List Nat) : List Nat := putUvarint b.length ++ b

theorem putUvarintLoop_congr (f : Nat) : ∀ (g n : Nat), n < f → n < g →
    putUvarintLoop f n = putUvarintLoop g n := by
  induction f with
  | zero => intro g n hf _; exact absurd hf (Nat.not_lt_zero n)
  | succ f ih =>
      intro g n _ hg
      cases g with
      | zero => exact absurd hg (Nat.not_lt_zero n)
      | succ g =>
          simp only [putUvarintLoop]
          by_cases h : n < 128
          · simp [h]
          · simp only [if_neg h]
            have h1 : n / 128 < n := Nat.div_lt_self (by omega) (by omega)
            rw [ih g (n / 128) (by omega) (by omega)]

/-- The defining recursion of `putUvarint`, fuel eliminated. -/
theorem putUvarint_eq (n : Nat) :
    putUvarint n = if n < 128 then [n] else (n % 128 + 128) :: putUvarint (n / 128) := by
  by_cases h : n < 128
  · simp [putUvarint, putUvarintLoop, h]
  · have h1 : n / 128 < n := Nat.div_lt_self (by omega) (by omega)
    rw [if_neg h]
    rw [show putUvarint n =
        if n < 128 then [n] else (n % 128 + 128) :: putUvarintLoop n (n / 128) from rfl,
      if_neg h]
    rw [putUvarintLoop_congr n (n / 128 + 1) (n / 128) h1 (Nat.lt_succ_self _)]
    rfl

theorem lor_shiftmod_eq_add {x s : Nat} (b : Nat) (hx : x < 2 ^ s)
    (hb : b * 2 ^ s < 2 ^ 64) :
    x ||| (b <<< s) % 2 ^ 64 = x + b * 2 ^ s := by
  rw [Nat.shiftLeft_eq, Nat.mod_eq_of_lt hb, Nat.lor_comm, Nat.mul_comm b (2 ^ s),
    ← Nat.mul_add_lt_is_or hx b]
  omega

theorem putUvarint_length_pos (n : Nat) : 0 < (putUvarint n).length := by
  rw [putUvarint_eq]; split <;> simp

theorem putUvarint_length_le (k : Nat) : ∀ n : Nat, n < 2 ^ (7 * (k + 1)) →
    (putUvarint n).length ≤ k + 1 := by
  induction k with
  | zero =>
      intro n hn
      have h : n < 128 := by
        have h7 : (2:Nat) ^ (7 * (0 + 1)) = 128 := by norm_num
        omega
      rw [putUvarint_eq, if_pos h]
      simp
  | succ k ih =>
      intro n hn
      rw [putUvarint_eq]
      by_cases h : n < 128
      · simp [h]
      · rw [if_neg h]
        simp only [List.length_cons]
        have hpow : (2:Nat) ^ (7 * (k + 1 + 1)) = 2 ^ (7 * (k + 1)) * 128 := by
          rw [show 7 * (k + 1 + 1) = 7 * (k + 1) + 7 by ring, pow_add]
          norm_num
        rw [hpow] at hn
        have hd : n / 128 < 2 ^ (7 * (k + 1)) := by
          rw [Nat.div_lt_iff_lt_mul (by omega)]
          omega
        have := ih (n / 128) hd
        omega

theorem uvarintLoop_putUvarint (n : Nat) : ∀ (rest : List Nat) (i x : Nat),
    x < 2 ^ (7 * i) → x + n * 2 ^ (7 * i) < 2 ^ 64 →
    i + (putUvarint n).length ≤ 10 →
    uvarintLoop (putUvarint n ++ rest) i x (7 * i) =
      (x + n * 2 ^ (7 * i), (i : Int) + ((putUvarint n).length : Int)) := by
  induction n using Nat.strong_induction_on with
  | _ n ih =>
    intro rest i x hx hlt hi
    by_cases h : n < 128
    · have hp : putUvarint n = [n] := by rw [putUvarint_eq, if_pos h]
      rw [hp] at hi ⊢
      simp only [List.length_cons, List.length_nil] at hi
      simp only [List.cons_append, List.nil_append, uvarintLoop]
      rw [if_neg (by omega : ¬ i = 10)]
      have hb : n % 256 = n := Nat.mod_eq_of_lt (by omega)
      have hguard : ¬ (i = 9 ∧ 1 < n) := by
        rintro ⟨h9, h1⟩
        subst h9
        norm_num at hlt
        omega
      rw [hb, if_pos h, if_neg hguard]
      have hmul : n * 2 ^ (7 * i) < 2 ^ 64 :=
        lt_of_le_of_lt (Nat.le_add_left _ x) hlt
      rw [lor_shiftmod_eq_add n hx hmul]
      simp
    · have hp : putUvarint n = (n % 128 + 128) :: putUvarint (n / 128) := by
        rw [putUvarint_eq, if_neg h]
      rw [hp] at hi ⊢
      simp only [List.length_cons] at hi
      simp only [List.cons_append, uvarintLoop]
      rw [if_neg (by omega : ¬ i = 10)]
      have hb : (n % 128 + 128) % 256 = n % 128 + 128 := Nat.mod_eq_of_lt (by omega)
      rw [hb, if_neg (by omega : ¬ (n % 128 + 128 < 128))]
      have hmod : (n % 128 + 128) % 128 = n % 128 := by omega
      rw [hmod]
      have hmle : n % 128 * 2 ^ (7 * i) ≤ n * 2 ^ (7 * i) :=
        Nat.mul_le_mul_right _ (Nat.mod_le n 128)
      have hmlt : n % 128 * 2 ^ (7 * i) < 2 ^ 64 :=
        lt_of_le_of_lt hmle (lt_of_le_of_lt (Nat.le_add_left _ x) hlt)
      rw [lor_shiftmod_eq_add (n % 128) hx hmlt]
      rw [show (7 : Nat) * i + 7 = 7 * (i + 1) by ring]
      have h2 : (2:Nat) ^ (7 * (i + 1)) = 2 ^ (7 * i) * 128 := by
        rw [show 7 * (i + 1) = 7 * i + 7 by ring, pow_add]
        norm_num
      have hx' : x + n % 128 * 2 ^ (7 * i) < 2 ^ (7 * (i + 1)) := by
        have hm : n % 128 ≤ 127 := by omega
        have := Nat.mul_le_mul_right (2 ^ (7 * i)) hm
        have hps : 0 < (2:Nat) ^ (7 * i) := Nat.pos_pow_of_pos _ (by omega)
        calc x + n % 128 * 2 ^ (7 * i) < 2 ^ (7 * i) + n % 128 * 2 ^ (7 * i) := by
              omega
          _ ≤ 2 ^ (7 * i) + 127 * 2 ^ (7 * i) := by omega
          _ = 2 ^ (7 * i) * 128 := by ring
          _ = 2 ^ (7 * (i + 1)) := h2.symm
      have hkey : x + n % 128 * 2 ^ (7 * i) + n / 128 * 2 ^ (7 * (i + 1)) =
          x + n * 2 ^ (7 * i) := by
        have h3 : n % 128 + 128 * (n / 128) = n := Nat.mod_add_div n 128
        calc x + n % 128 * 2 ^ (7 * i) + n / 128 * 2 ^ (7 * (i + 1))
            = x + (n % 128 + 128 * (n / 128)) * 2 ^ (7 * i) := by rw [h2]; ring
          _ = x + n * 2 ^ (7 * i) := by rw [h3]
      have hlt' : x + n % 128 * 2 ^ (7 * i) + n / 128 * 2 ^ (7 * (i + 1)) < 2 ^ 64 := by
        rw [hkey]; exact hlt
      have h128 : n / 128 < n := Nat.div_lt_self (by omega) (by omega)
      simp only [List.append_eq]
      rw [ih (n / 128) h128 rest (i + 1) _ hx' hlt' (by omega)]
      simp only [Prod.mk.injEq, List.length_cons]
      constructor
      · exact hkey
      · push_cast
        omega

theorem putUvarint_length_le_four {n : Nat} (hn : n ≤ 4000000) :
    (putUvarint n).length ≤ 4 := by
  have h28 : (2:Nat) ^ (7 * (3 + 1)) = 268435456 := by norm_num
  exact putUvarint_length_le 3 n (by omega)

theorem putUvarint_length_le_ten {n : Nat} (hn : n < 2 ^ 64) :
    (putUvarint n).length ≤ 10 := by
  have h1 : (2:Nat) ^ 64 ≤ 2 ^ (7 * (9 + 1)) := Nat.pow_le_pow_right (by omega) (by omega)
  exact putUvarint_length_le 9 n (by omega)

theorem sizeBuffer_length {n : Nat} (h : (putUvarint n).length ≤ 10) :
    (sizeBuffer n).length = 10 := by
  simp only [sizeBuffer, List.length_append, List.length_replicate]
  omega

/-- Decoding the 10-byte length buffer recovers the encoded length and the
number of varint bytes. -/
theorem uvarint_sizeBuffer {n : Nat} (h10 : (putUvarint n).length ≤ 10)
    (hn : n < 2 ^ 64) :
    uvarint (sizeBuffer n) = (n, ((putUvarint n).length : Int)) := by
  have h := uvarintLoop_putUvarint n (List.replicate (10 - (putUvarint n).length) 0) 0 0
    (by norm_num) (by simpa using hn) (by omega)
  simpa [uvarint, sizeBuffer] using h

theorem decodeFrameLen_append {pre : List Nat} (body : List Nat)
    (hpre : pre.length = 10) (hread : 0 < (uvarint pre).2)
    (hsz : (uvarint pre).1 ≤ 4000000) :
    decodeFrameLen (pre ++ body) = .ok ((uvarint pre).1, 10) := by
  have htake : (pre ++ body).take 10 = pre := List.take_left' hpre
  have hlen : (pre ++ body).length = 10 + body.length := by simp [hpre]
  have hmin : min 10 (10 + body.length) = 10 := Nat.min_eq_left (by omega)
  simp only [decodeFrameLen, hlen, hmin, htake, Nat.sub_self, List.replicate_zero,
    List.append_nil]
  rw [if_neg (by omega : ¬ (10 + body.length = 0))]
  rw [if_neg (by omega : ¬ ((uvarint pre).2 ≤ 0 ∨ 4000000 < (uvarint pre).1))]

theorem receiveFrameC_append {pre : List Nat} (body : List Nat)
    (hpre : pre.length = 10) (hread : 0 < (uvarint pre).2)
    (hsz : (uvarint pre).1 ≤ 4000000) (hbl : (uvarint pre).1 ≤ body.length) :
    receiveFrameC (pre ++ body) =
      (.ok (body.take (uvarint pre).1), 10 + (uvarint pre).1) := by
  have hdrop : (pre ++ body).drop 10 = body := List.drop_left' hpre
  simp only [receiveFrameC, decodeFrameLen_append body hpre hread hsz, hdrop]
  rw [if_pos hbl]

theorem receiveFrameC_of_decode_short {input : List Nat} {size consumed : Nat}
    (hd : decodeFrameLen input = .ok (size, consumed))
    (hpos : 0 < (input.drop consumed).length)
    (hlt : (input.drop consumed).length < size) :
    receiveFrameC input =
      (.error .bodyUnexpectedEOF, consumed + (input.drop consumed).length) := by
  simp only [receiveFrameC, hd]
  rw [if_neg (by omega), if_neg (by omega)]

/-- C4: for every byte payload b with len(b) ≤ 4,000,000, decoding the frame
produced by sendMessage's prefixing yields declared length len(b), and the
body bytes subsequently read equal b. -/
theorem frame_roundtrip (b : List Nat) (hb : b.length ≤ 4000000) :
    decodeFrameLen (frameBytes b) = .ok (b.length, 10) ∧
    receiveFrameC (frameBytes b) = (.ok b, 10 + b.length) := by
  have h4 : (putUvarint b.length).length ≤ 4 := putUvarint_length_le_four hb
  have hn64 : b.length < 2 ^ 64 := by
    have : (4000000:Nat) < 2 ^ 64 := by norm_num
    omega
  have hu : uvarint (sizeBuffer b.length) =
      (b.length, ((putUvarint b.length).length : Int)) :=
    uvarint_sizeBuffer (by omega) hn64
  have hpre : (sizeBuffer b.length).length = 10 := sizeBuffer_length (by omega)
  have hpos : 0 < (putUvarint b.length).length := putUvarint_length_pos _
  have hread : 0 < (uvarint (sizeBuffer b.length)).2 := by
    rw [hu]
    show (0:Int) < ((putUvarint b.length).length : Int)
    exact_mod_cast hpos
  have hsz : (uvarint (sizeBuffer b.length)).1 ≤ 4000000 := by
    rw [hu]; exact hb
  constructor
  · have h := decodeFrameLen_append b hpre hread hsz
    rw [hu] at h
    simpa [frameBytes] using h
  · have h := receiveFrameC_append b hpre hread hsz (by rw [hu])
    rw [hu] at h
    simpa [frameBytes, List.take_length] using h

theorem frame_roundtrip_inst :
    decodeFrameLen (frameBytes [7, 7, 7]) = .ok (3, 10) ∧
    receiveFrameC (frameBytes [7, 7, 7]) = (.ok [7, 7, 7], 13) :=
  frame_roundtrip [7, 7, 7] (by decide)

/-- C3: the varint/size check runs strictly before any body read — on a
10-byte probe whose varint is broken (read ≤ 0) or whose declared length
exceeds 4,000,000, receive fails with the size error and consumes only the
probe, whatever body bytes follow. -/
theorem frameLen_check_before_body (pre : List Nat) (hpre : pre.length = 10)
    (hbad : (uvarint pre).2 ≤ 0 ∨ 4000000 < (uvarint pre).1) (rest : List Nat) :
    decodeFrameLen (pre ++ rest) = .error .sizeBroken ∧
    receiveFrameC (pre ++ rest) = (.error .sizeBroken, 10) := by
  have htake : (pre ++ rest).take 10 = pre := List.take_left' hpre
  have hlen : (pre ++ rest).length = 10 + rest.length := by simp [hpre]
  have hmin : min 10 (10 + rest.length) = 10 := Nat.min_eq_left (by omega)
  have hd : decodeFrameLen (pre ++ rest) = .error .sizeBroken := by
    simp only [decodeFrameLen, hlen, hmin, htake, Nat.sub_self, List.replicate_zero,
      List.append_nil]
    rw [if_neg (by omega : ¬ (10 + rest.length = 0)), if_pos hbad]
  refine ⟨hd, ?_⟩
  simp only [receiveFrameC, hd, hlen, hmin]

theorem frameLen_check_before_body_inst :
    decodeFrameLen ([129, 146, 244, 1, 0, 0, 0, 0, 0, 0] ++ [9, 9, 9]) =
      .error .sizeBroken ∧
    receiveFrameC ([129, 146, 244, 1, 0, 0, 0, 0, 0, 0] ++ [9, 9, 9]) =
      (.error .sizeBroken, 10) :=
  frameLen_check_before_body [129, 146, 244, 1, 0, 0, 0, 0, 0, 0] (by decide)
    (by decide) [9, 9, 9]

/-- C5 counterexample: for payload [7] the encoder emits the zero-padded
10-byte prefix plus payload, which differs from the spec's minimal-varint
frame. -/
theorem frame_not_minimal_varint : frameBytes [7] ≠ specMinimalFrame [7] := by
  decide

/-- C5 amended: for every byte payload (any length representable as the
uint64 that Go's `uint64(len(bytes))` produces), the encoder prefixes the
payload with the minimal varint of its length written into a fixed 10-byte
zero-initialised buffer, so the frame is varint ++ zero padding ++ payload, of
total length 10 + len(payload), with the prefix still decoding to the payload
length; no upper bound is enforced on encode. -/
theorem frame_padded_varint (b : List Nat) (hb : b.length < 2 ^ 64) :
    frameBytes b =
      putUvarint b.length ++
        (List.replicate (10 - (putUvarint b.length).length) 0 ++ b) ∧
    (frameBytes b).length = 10 + b.length ∧
    (uvarint (sizeBuffer b.length)).1 = b.length := by
  have h10 : (putUvarint b.length).length ≤ 10 := putUvarint_length_le_ten hb
  refine ⟨by simp [frameBytes, sizeBuffer, List.append_assoc], ?_, ?_⟩
  · simp [frameBytes, sizeBuffer_length h10]
  · rw [uvarint_sizeBuffer h10 hb]

theorem frame_padded_varint_inst :
    frameBytes [7] =
      putUvarint 1 ++ (List.replicate (10 - (putUvarint 1).length) 0 ++ [7]) ∧
    (frameBytes [7]).length = 10 + 1 ∧
    (uvarint (sizeBuffer 1)).1 = 1 :=
  frame_padded_varint [7] (by decide)

/-- C10: the wire length prefix is a fixed-width field of exactly
binary.MaxVarintLen64 = 10 bytes — the minimal varint of the body length plus
zero padding — whatever the body length is, and the receiver reads a 10-byte
probe, discards the probe bytes after the varint, and reads the body starting
at offset 10. -/
theorem fixed_width_length_field (b : List Nat) (hb : b.length < 2 ^ 64)
    (pre body : List Nat) (hpre : pre.length = 10)
    (hread : 0 < (uvarint pre).2) (hsz : (uvarint pre).1 ≤ 4000000)
    (hbl : (uvarint pre).1 ≤ body.length) :
    (sizeBuffer b.length).length = 10 ∧
    frameBytes b = sizeBuffer b.length ++ b ∧
    decodeFrameLen (pre ++ body) = .ok ((uvarint pre).1, 10) ∧
    receiveFrameC (pre ++ body) =
      (.ok (body.take (uvarint pre).1), 10 + (uvarint pre).1) :=
  ⟨sizeBuffer_length (putUvarint_length_le_ten hb), rfl,
    decodeFrameLen_append body hpre hread hsz,
    receiveFrameC_append body hpre hread hsz hbl⟩

theorem fixed_width_length_field_inst :
    (sizeBuffer 2).length = 10 ∧
    frameBytes [1, 2] = sizeBuffer 2 ++ [1, 2] ∧
    decodeFrameLen ([2, 0, 0, 0, 0, 0, 0, 0, 0, 0] ++ [5, 6]) =
      .ok ((uvarint [2, 0, 0, 0, 0, 0, 0, 0, 0, 0]).1, 10) ∧
    receiveFrameC ([2, 0, 0, 0, 0, 0, 0, 0, 0, 0] ++ [5, 6]) =
      (.ok ([5, 6].take (uvarint [2, 0, 0, 0, 0, 0, 0, 0, 0, 0]).1),
        10 + (uvarint [2, 0, 0, 0, 0, 0, 0, 0, 0, 0]).1) :=
  fixed_width_length_field [1, 2] (by decide) [2, 0, 0, 0, 0, 0, 0, 0, 0, 0]
    [5, 6] (by decide) (by decide) (by decide) (by decide)

/-- C1: receive returns the decoded Envelope only if the external verification
capability succeeds on (sender.public_key, payload, signature); and when all
required fields are present but the signature does not verify, receive returns
the bad-signature error and no Envelope. -/
theorem receive_verify_gate (acceptOk dlOk : Bool)
    (um : List Nat → Option Msg) (v : List Nat → List Nat → List Nat → Bool)
    (input : List Nat) :
    (∀ m : Msg, (receiveMessage acceptOk dlOk um v input).result = .ok m →
        v m.senderKey m.payloadBytes m.sigBytes = true ∧
        (receiveMessage acceptOk dlOk um v input).verifyCalled = true) ∧
    (∀ (body : List Nat) (m : Msg), acceptOk = true → dlOk = true →
        receiveFrame input = .ok body → um body = some m →
        invalidHeaders m = false →
        v m.senderKey m.payloadBytes m.sigBytes = false →
        (receiveMessage acceptOk dlOk um v input).result = .error .badSignature) := by
  constructor
  · intro m hm
    cases acceptOk with
    | false => simp [receiveMessage] at hm
    | true =>
      cases dlOk with
      | false => simp [receiveMessage] at hm
      | true =>
        cases hf : receiveFrame input with
        | error e => simp [receiveMessage, hf] at hm
        | ok body =>
          cases hu : um body with
          | none => simp [receiveMessage, hf, hu] at hm
          | some mm =>
            by_cases hinv : invalidHeaders mm = true
            · simp [receiveMessage, hf, hu, hinv] at hm
            · by_cases hv : v mm.senderKey mm.payloadBytes mm.sigBytes = true
              · have hmm : mm = m := by
                  simpa [receiveMessage, hf, hu, hinv, hv] using hm
                subst hmm
                exact ⟨hv, by simp [receiveMessage, hf, hu, hinv, hv]⟩
              · simp [receiveMessage, hf, hu, hinv, hv] at hm
  · intro body m ha hd hf hu hinv hv
    subst ha; subst hd
    simp [receiveMessage, hf, hu, hinv, hv]

theorem receive_verify_gate_inst :
    (receiveMessage true true
        (fun bs => some ⟨some bs, some ⟨some [5], [97]⟩, some [9]⟩)
        (fun _ _ _ => false)
        [3, 0, 0, 0, 0, 0, 0, 0, 0, 0, 1, 2, 3]).result = .error .badSignature :=
  (receive_verify_gate true true
      (fun bs => some ⟨some bs, some ⟨some [5], [97]⟩, some [9]⟩)
      (fun _ _ _ => false)
      [3, 0, 0, 0, 0, 0, 0, 0, 0, 0, 1, 2, 3]).2
    [1, 2, 3] ⟨some [1, 2, 3], some ⟨some [5], [97]⟩, some [9]⟩
    rfl rfl rfl rfl (by decide) rfl

/-- C2: when the decoded Envelope is missing its payload, sender, sender
public key, or signature, or its sender address is empty, receive rejects it
with the validation error, the verification capability is not invoked, and the
whole outcome is independent of the verification capability; the field check
gates the signature check. -/
theorem receive_validation_before_verify (acceptOk dlOk : Bool)
    (um : List Nat → Option Msg)
    (v w : List Nat → List Nat → List Nat → Bool)
    (input body : List Nat) (m : Msg)
    (ha : acceptOk = true) (hd : dlOk = true)
    (hf : receiveFrame input = .ok body) (hu : um body = some m)
    (hbad : m.message = none ∨ m.sender = none ∨ m.signature = none ∨
      ∃ s, m.sender = some s ∧ (s.publicKey = none ∨ s.address.length = 0)) :
    (receiveMessage acceptOk dlOk um v input).result = .error .invalidMessage ∧
    (receiveMessage acceptOk dlOk um v input).verifyCalled = false ∧
    receiveMessage acceptOk dlOk um v input =
      receiveMessage acceptOk dlOk um w input := by
  subst ha; subst hd
  have hinv : invalidHeaders m = true := by
    rcases hbad with h | h | h | ⟨s, hs, h | h⟩
    · simp [invalidHeaders, h]
    · simp [invalidHeaders, h]
    · simp [invalidHeaders, h]
    · simp [invalidHeaders, hs, h]
    · simp [invalidHeaders, hs, h]
  refine ⟨?_, ?_, ?_⟩ <;> simp [receiveMessage, hf, hu, hinv]

theorem receive_validation_before_verify_inst :
    (receiveMessage true true (fun _ => some ⟨none, some ⟨some [1], [97]⟩, some [2]⟩)
        (fun _ _ _ => true) [3, 0, 0, 0, 0, 0, 0, 0, 0, 0, 1, 2, 3]).result =
      .error .invalidMessage ∧
    (receiveMessage true true (fun _ => some ⟨none, some ⟨some [1], [97]⟩, some [2]⟩)
        (fun _ _ _ => true) [3, 0, 0, 0, 0, 0, 0, 0, 0, 0, 1, 2, 3]).verifyCalled =
      false ∧
    receiveMessage true true (fun _ => some ⟨none, some ⟨some [1], [97]⟩, some [2]⟩)
        (fun _ _ _ => true) [3, 0, 0, 0, 0, 0, 0, 0, 0, 0, 1, 2, 3] =
      receiveMessage true true (fun _ => some ⟨none, some ⟨some [1], [97]⟩, some [2]⟩)
        (fun _ _ _ => false) [3, 0, 0, 0, 0, 0, 0, 0, 0, 0, 1, 2, 3] :=
  receive_validation_before_verify true true
    (fun _ => some ⟨none, some ⟨some [1], [97]⟩, some [2]⟩)
    (fun _ _ _ => true) (fun _ _ _ => false)
    [3, 0, 0, 0, 0, 0, 0, 0, 0, 0, 1, 2, 3] [1, 2, 3]
    ⟨none, some ⟨some [1], [97]⟩, some [2]⟩
    rfl rfl rfl rfl (Or.inl rfl)

/-- C6 counterexample: a frame declaring 5 body bytes whose stream ends with
zero body bytes delivered makes receive fail with the plain EOF error and does
not force-close the stream, contrary to the claim that every short body yields
the truncation error with a forced close. -/
theorem truncation_zero_body_plain_eof :
    (receiveMessage true true (fun _ => none) (fun _ _ _ => false)
        [5, 0, 0, 0, 0, 0, 0, 0, 0, 0]).result = .error .bodyEOF ∧
    (receiveMessage true true (fun _ => none) (fun _ _ _ => false)
        [5, 0, 0, 0, 0, 0, 0, 0, 0, 0]).forcedClose = false :=
  ⟨rfl, rfl⟩

/-- C6 amended: when the peer delivers at least one but fewer than
declared_length body bytes, receive fails with the unexpected-EOF truncation
error and the stream is force-closed in addition to the unconditional
teardown; when zero body bytes arrive, the failure is the plain EOF error
without the forced close. -/
theorem truncation_partial_body_forces_close
    (um : List Nat → Option Msg) (v : List Nat → List Nat → List Nat → Bool)
    (input : List Nat) (size consumed : Nat)
    (hdec : decodeFrameLen input = .ok (size, consumed))
    (hpos : 0 < (input.drop consumed).length)
    (hlt : (input.drop consumed).length < size) :
    (receiveMessage true true um v input).result = .error .bodyUnexpectedEOF ∧
    (receiveMessage true true um v input).forcedClose = true ∧
    (receiveMessage true true um v input).closed = true := by
  have hfc : receiveFrame input = .error .bodyUnexpectedEOF := by
    simp [receiveFrame, receiveFrameC_of_decode_short hdec hpos hlt]
  refine ⟨?_, ?_, ?_⟩ <;> simp [receiveMessage, hfc]

theorem truncation_partial_body_forces_close_inst :
    (receiveMessage true true (fun _ => none) (fun _ _ _ => false)
        ([100, 0, 0, 0, 0, 0, 0, 0, 0, 0] ++ List.replicate 10 7)).result =
      .error .bodyUnexpectedEOF ∧
    (receiveMessage true true (fun _ => none) (fun _ _ _ => false)
        ([100, 0, 0, 0, 0, 0, 0, 0, 0, 0] ++ List.replicate 10 7)).forcedClose =
      true ∧
    (receiveMessage true true (fun _ => none) (fun _ _ _ => false)
        ([100, 0, 0, 0, 0, 0, 0, 0, 0, 0] ++ List.replicate 10 7)).closed = true :=
  truncation_partial_body_forces_close (fun _ => none) (fun _ _ _ => false)
    ([100, 0, 0, 0, 0, 0, 0, 0, 0, 0] ++ List.replicate 10 7) 100 10
    rfl (by decide) (by decide)

/-- C9 counterexample: on the exit path where setting the initial deadline
fails, the opened (or accepted) stream is closed by the teardown but the
deadline is not reset, because the reset defer is registered only after
SetDeadline succeeds. -/
theorem teardown_deadline_gap :
    (sendMessage true false none none false).streamOpened = true ∧
    (sendMessage true false none none false).closed = true ∧
    (sendMessage true false none none false).deadlineReset = false ∧
    (receiveMessage true false (fun _ => none) (fun _ _ _ => false)
        []).streamAccepted = true ∧
    (receiveMessage true false (fun _ => none) (fun _ _ _ => false)
        []).closed = true ∧
    (receiveMessage true false (fun _ => none) (fun _ _ _ => false)
        []).deadlineReset = false :=
  ⟨rfl, rfl, rfl, rfl, rfl, rfl⟩

/-- C9 amended: on every exit path of send and receive in which a stream was
opened or accepted the stream is closed; and on every such path on which the
initial SetDeadline also succeeded, the deadline is reset as part of teardown.
Only the SetDeadline-failure path closes without resetting. -/
theorem teardown_close_and_reset (openOk dlOk : Bool) (marshal : Option (List Nat))
    (writeRes : Option Nat) (flushOk : Bool) (acceptOk rdlOk : Bool)
    (um : List Nat → Option Msg) (v : List Nat → List Nat → List Nat → Bool)
    (input : List Nat) :
    ((sendMessage openOk dlOk marshal writeRes flushOk).streamOpened = true →
      (sendMessage openOk dlOk marshal writeRes flushOk).closed = true) ∧
    ((sendMessage openOk dlOk marshal writeRes flushOk).streamOpened = true →
      dlOk = true →
      (sendMessage openOk dlOk marshal writeRes flushOk).deadlineReset = true) ∧
    ((receiveMessage acceptOk rdlOk um v input).streamAccepted = true →
      (receiveMessage acceptOk rdlOk um v input).closed = true) ∧
    ((receiveMessage acceptOk rdlOk um v input).streamAccepted = true →
      rdlOk = true →
      (receiveMessage acceptOk rdlOk um v input).deadlineReset = true) := by
  have hsend : (sendMessage openOk dlOk marshal writeRes flushOk).streamOpened = openOk ∧
      (sendMessage openOk dlOk marshal writeRes flushOk).closed = openOk ∧
      (sendMessage openOk dlOk marshal writeRes flushOk).deadlineReset =
        (openOk && dlOk) := by
    cases openOk <;> cases dlOk <;> cases marshal <;> cases writeRes <;>
      cases flushOk <;> simp [sendMessage, apply_ite]
  have hrecv : (receiveMessage acceptOk rdlOk um v input).streamAccepted = acceptOk ∧
      (receiveMessage acceptOk rdlOk um v input).closed = acceptOk ∧
      (receiveMessage acceptOk rdlOk um v input).deadlineReset =
        (acceptOk && rdlOk) := by
    cases acceptOk with
    | false => simp [receiveMessage]
    | true =>
      cases rdlOk with
      | false => simp [receiveMessage]
      | true =>
        cases hf : receiveFrame input with
        | error e => simp [receiveMessage, hf]
        | ok body =>
          cases hu : um body with
          | none => simp [receiveMessage, hf, hu]
          | some m =>
            by_cases hinv : invalidHeaders m = true
            · simp [receiveMessage, hf, hu, hinv]
            · by_cases hv : v m.senderKey m.payloadBytes m.sigBytes = true
              · simp [receiveMessage, hf, hu, hinv, hv]
              · simp [receiveMessage, hf, hu, hinv, hv]
  obtain ⟨hs1, hs2, hs3⟩ := hsend
  obtain ⟨hr1, hr2, hr3⟩ := hrecv
  refine ⟨?_, ?_, ?_, ?_⟩
  · intro h; rw [hs1] at h; rw [hs2, h]
  · intro h hd; rw [hs1] at h; rw [hs3, h, hd]; rfl
  · intro h; rw [hr1] at h; rw [hr2, h]
  · intro h hd; rw [hr1] at h; rw [hr3, h, hd]; rfl

theorem teardown_close_and_reset_inst :
    (sendMessage true true (some [1]) (some 11) true).closed = true ∧
    (sendMessage true true (some [1]) (some 11) true).deadlineReset = true ∧
    (receiveMessage true true (fun _ => none) (fun _ _ _ => false) []).closed =
      true ∧
    (receiveMessage true true (fun _ => none) (fun _ _ _ => false)
        []).deadlineReset = true :=
  ⟨(teardown_close_and_reset true true (some [1]) (some 11) true true true
      (fun _ => none) (fun _ _ _ => false) []).1 rfl,
    (teardown_close_and_reset true true (some [1]) (some 11) true true true
      (fun _ => none) (fun _ _ _ => false) []).2.1 rfl rfl,
    (teardown_close_and_reset true true (some [1]) (some 11) true true true
      (fun _ => none) (fun _ _ _ => false) []).2.2.1 rfl,
    (teardown_close_and_reset true true (some [1]) (some 11) true true true
      (fun _ => none) (fun _ _ _ => false) []).2.2.2 rfl rfl⟩

/-- C8: every Write call's Packet carries a fresh completion slot of capacity
exactly one with an empty buffer, so one completion value is absorbed without
blocking even when no caller is left to read it, while a second send on the
filled slot would block — the capacity is exactly one and each call owns its
own slot. -/
theorem write_completion_slot (address : List Nat) (message : Msg)
    (value late : Completion) :
    (mkPacket address message).result.capacity = 1 ∧
    (mkPacket address message).result.buffer = [] ∧
    (mkPacket address message).result.send value = some ⟨1, [value]⟩ ∧
    CompletionChan.send ⟨1, [value]⟩ late = none := by
  refine ⟨rfl, rfl, ?_, ?_⟩ <;> simp [mkPacket, CompletionChan.send]
